import Mathlib

/-!
# Verification of the agent-session orchestration core of `order-up`

This file is a shallow embedding, in Lean 4, of the agent session
orchestration and event-streaming core of `src/app/server.ts`:

* the SSE broadcaster (`broadcastSSE`, the `sseClients` array);
* the agent job registry (`agentJobs`, `POST /api/agent-job`);
* agent sessions (`AgentSession`, `createAgentSession`, the
  stdout/stderr/exit handlers, `POST /api/agent-session`,
  `DELETE /api/agent-session/:id`).

JavaScript strings are modelled as `List Char` (sequences of code
points).  Wall-clock timestamps (`Date.now()`) are passed in as explicit
`now : Nat` parameters.  Host-environment builtins used by the source
(`String.prototype.trim`, `String.prototype.split`, `JSON.parse`,
`Buffer.prototype.toString`) are modelled by Lean functions defined
below, each marked as such in its doc comment.
-/

/-- A JavaScript string, modelled as its sequence of code points. -/
abbrev JsStr := List Char

/-- Embed a Lean string literal as a `JsStr`. -/
def jstr (s : String) : JsStr := s.data

/-- Model of the character class removed by JavaScript
`String.prototype.trim` (ASCII whitespace plus NBSP and BOM; the exotic
Unicode space separators do not occur in the streams modelled here). -/
def isJsWs (c : Char) : Bool :=
  c = ' ' || c = '\t' || c = '\n' || c = '\r' ||
  c = Char.ofNat 0x0b || c = Char.ofNat 0x0c ||
  c = Char.ofNat 0xa0 || c = Char.ofNat 0xfeff

/-- Model of JavaScript `String.prototype.trim`. -/
def jsTrim (s : JsStr) : JsStr :=
  ((s.dropWhile isJsWs).reverse.dropWhile isJsWs).reverse

/-- The JSON value model used for parsed stream records and event
payloads.  Numbers are restricted to integers: the agent stream protocol
(`type`/`subtype`/`session_id` fields) uses none, so fractional numbers
are outside the model's scope. -/
inductive Json where
  | null
  | bool (b : Bool)
  | num (n : Int)
  | str (s : JsStr)
  | arr (xs : List Json)
  | obj (fields : List (JsStr × Json))
  deriving Repr

/-- First field of a JSON object with the given key (JavaScript property
access `o.key` on a parsed object; `none` models `undefined`). -/
def jsGet (j : Json) (key : JsStr) : Option Json :=
  match j with
  | .obj fields =>
    match fields.find? (fun f => f.1 = key) with
    | some f => some f.2
    | none => none
  | _ => none

/-- JavaScript truthiness of a field access result (`undefined`, `null`,
`false`, `0` and `""` are falsy). -/
def jsTruthy : Option Json → Bool
  | none => false
  | some .null => false
  | some (.bool b) => b
  | some (.num n) => n ≠ 0
  | some (.str s) => s ≠ []
  | some (.arr _) => true
  | some (.obj _) => true

/-- `v === s` for a JavaScript property-access result and a string
literal (true only when the property holds exactly that string). -/
def jsIsStr (v : Option Json) (s : JsStr) : Bool :=
  match v with
  | some (.str t) => t = s
  | _ => false

/-- `v || d`: the value when truthy, the default otherwise. -/
def jsOrJson (v : Option Json) (d : Json) : Json :=
  match v with
  | some j => if jsTruthy (some j) then j else d
  | none => d

/-- The `session_id` field of a parsed record, when it is a truthy
string.  The CLI protocol (and the TS field `cursorChatId?: string`)
declares this identifier as a string; non-string values are outside the
model's scope. -/
def sessionIdStr (parsed : Json) : Option JsStr :=
  match jsGet parsed (jstr "session_id") with
  | some (.str s) => if s = [] then none else some s
  | _ => none

/-- Session status (`AgentSession.status` in `src/app/server.ts`). -/
inductive SessionStatus where
  | running | complete | failed | cancelled
  deriving Repr, DecidableEq

/-- One framed stream message (`AgentStreamMessage` in
`src/app/server.ts`).  The source also stamps each message with the
wall-clock arrival time `ts: Date.now()`; that timestamp is environment
input, not a function of the stream, and is omitted here — the claims
are about the kind/subtype/payload sequence. -/
structure AgentStreamMessage where
  type : Json
  subtype : Option Json
  raw : Json
  deriving Repr

/-- One agent session (`AgentSession` in `src/app/server.ts`).
`exitCode : Option (Option Int)` distinguishes "not yet exited"
(outer `none`, JS `undefined`) from "killed by signal" (inner `none`,
JS `null`). -/
structure AgentSession where
  id : JsStr
  repo : Option JsStr
  number : Option Int
  prompt : JsStr
  path : JsStr
  status : SessionStatus
  pid : Option Nat
  messages : List AgentStreamMessage
  startedAt : Nat
  completedAt : Option Nat
  exitCode : Option (Option Int)
  label : Option JsStr
  cursorChatId : Option JsStr
  deriving Repr

/-- The structured message built from a successfully parsed line
(`{ type: parsed.type || "unknown", subtype: parsed.subtype,
raw: parsed }`). -/
def parsedMessage (parsed : Json) : AgentStreamMessage :=
  { type := jsOrJson (jsGet parsed (jstr "type")) (.str (jstr "unknown"))
    subtype := jsGet parsed (jstr "subtype")
    raw := parsed }

/-- The raw-text fallback message built from an unparsable line
(`{ type: "raw", raw: { text: trimmed } }`). -/
def rawMessage (trimmed : JsStr) : AgentStreamMessage :=
  { type := .str (jstr "raw")
    subtype := none
    raw := .obj [(jstr "text", .str trimmed)] }

/-- `a` if present, otherwise `b` (first-of-two fallback on options). -/
def orO {α : Type} (a b : Option α) : Option α :=
  match a with
  | some x => some x
  | none => b

/-- Per-line classification, written from the spec's words: a
whitespace-only line produces no message; a line that parses produces
one structured message tagged with the record's declared kind/subtype
and the decoded payload preserved; any other line produces one raw-text
message containing the trimmed line. -/
def classifyLine (parse : JsStr → Option Json) (line : JsStr) :
    Option AgentStreamMessage :=
  let trimmed := jsTrim line
  if trimmed = [] then none
  else
    match parse trimmed with
    | some parsed => some (parsedMessage parsed)
    | none => some (rawMessage trimmed)

/-- The conversation identifier carried by a line, when that line parses
as a lifecycle-init record (`type = "system"`, `subtype = "init"`) with
a truthy `session_id`. -/
def initIdOfLine (parse : JsStr → Option Json) (line : JsStr) : Option JsStr :=
  let trimmed := jsTrim line
  if trimmed = [] then none
  else
    match parse trimmed with
    | some parsed =>
      if jsIsStr (jsGet parsed (jstr "type")) (jstr "system") &&
         jsIsStr (jsGet parsed (jstr "subtype")) (jstr "init") then
        sessionIdStr parsed
      else none
    | none => none

/-- The opening-brace character U+007B. -/
def lbrace : Char := Char.ofNat 0x7b

/-- The closing-brace character U+007D. -/
def rbrace : Char := Char.ofNat 0x7d

/-- JSON insignificant whitespace. -/
def jsonWs (c : Char) : Bool := c = ' ' || c = '\t' || c = '\n' || c = '\r'

/-- Skip insignificant whitespace. -/
def skipWs (s : JsStr) : JsStr := s.dropWhile jsonWs

/-- Single-character JSON string escapes. -/
def parseEscape : Char → Option Char
  | '"' => some '"'
  | '\\' => some '\\'
  | '/' => some '/'
  | 'b' => some (Char.ofNat 8)
  | 'f' => some (Char.ofNat 12)
  | 'n' => some '\n'
  | 'r' => some '\r'
  | 't' => some '\t'
  | _ => none

/-- Hexadecimal digit value. -/
def hexDigit (c : Char) : Option Nat :=
  if '0' ≤ c ∧ c ≤ '9' then some (c.toNat - '0'.toNat)
  else if 'a' ≤ c ∧ c ≤ 'f' then some (c.toNat - 'a'.toNat + 10)
  else if 'A' ≤ c ∧ c ≤ 'F' then some (c.toNat - 'A'.toNat + 10)
  else none

/-- Body of a JSON string after the opening quote; returns the decoded
contents and the input remaining after the closing quote.  `\uXXXX`
escapes cover scalar values (surrogate pairs are outside the model's
scope). -/
def parseStringBody : Nat → JsStr → Option (JsStr × JsStr)
  | 0, _ => none
  | _, [] => none
  | fuel + 1, c :: rest =>
    if c = '"' then some ([], rest)
    else if c = '\\' then
      match rest with
      | 'u' :: h1 :: h2 :: h3 :: h4 :: rest2 => do
        let v1 ← hexDigit h1
        let v2 ← hexDigit h2
        let v3 ← hexDigit h3
        let v4 ← hexDigit h4
        let (s, r) ← parseStringBody fuel rest2
        some (Char.ofNat (((v1 * 16 + v2) * 16 + v3) * 16 + v4) :: s, r)
      | e :: rest2 => do
        let ec ← parseEscape e
        let (s, r) ← parseStringBody fuel rest2
        some (ec :: s, r)
      | [] => none
    else if c.toNat < 0x20 then none
    else do
      let (s, r) ← parseStringBody fuel rest
      some (c :: s, r)

/-- Decimal digits to a natural number. -/
def digitsToNat (ds : JsStr) : Nat :=
  ds.foldl (fun a c => a * 10 + (c.toNat - '0'.toNat)) 0

/-- A JSON number token.  Integers only: fractional or exponent forms
are outside the model's scope (the agent stream protocol carries none)
and make the line unparsable in the model. -/
def parseNum (s : JsStr) : Option (Json × JsStr) :=
  let (neg, s1) : Bool × JsStr := match s with
    | '-' :: r => (true, r)
    | _ => (false, s)
  let ds := s1.takeWhile Char.isDigit
  let r := s1.dropWhile Char.isDigit
  if ds = [] then none
  else if 1 < ds.length ∧ ds.headI = '0' then none
  else
    match r with
    | '.' :: _ => none
    | 'e' :: _ => none
    | 'E' :: _ => none
    | _ =>
      let n : Int := digitsToNat ds
      some (.num (if neg then -n else n), r)

mutual

/-- One JSON value, by recursive descent with explicit fuel (the fuel
only bounds recursion; `jsonParse` supplies more than any input can
consume). -/
def parseVal : Nat → JsStr → Option (Json × JsStr)
  | 0, _ => none
  | fuel + 1, s =>
    match skipWs s with
    | [] => none
    | c :: rest =>
      if c = '"' then
        match parseStringBody (fuel + 1) rest with
        | some (str, r) => some (.str str, r)
        | none => none
      else if c = lbrace then parseObjRest fuel rest
      else if c = '[' then parseArrRest fuel rest
      else if c = 't' then
        match rest with
        | 'r' :: 'u' :: 'e' :: r => some (.bool true, r)
        | _ => none
      else if c = 'f' then
        match rest with
        | 'a' :: 'l' :: 's' :: 'e' :: r => some (.bool false, r)
        | _ => none
      else if c = 'n' then
        match rest with
        | 'u' :: 'l' :: 'l' :: r => some (.null, r)
        | _ => none
      else if c = '-' ∨ c.isDigit then parseNum (c :: rest)
      else none

/-- Object members after the opening brace. -/
def parseObjRest : Nat → JsStr → Option (Json × JsStr)
  | 0, _ => none
  | fuel + 1, s =>
    match skipWs s with
    | c :: r => if c = rbrace then some (.obj [], r) else parseMembers fuel s []
    | [] => parseMembers fuel s []

/-- Non-empty member list of an object. -/
def parseMembers : Nat → JsStr → List (JsStr × Json) → Option (Json × JsStr)
  | 0, _, _ => none
  | fuel + 1, s, acc =>
    match skipWs s with
    | '"' :: rest =>
      match parseStringBody fuel rest with
      | some (key, r1) =>
        match skipWs r1 with
        | ':' :: r2 =>
          match parseVal fuel r2 with
          | some (v, r3) =>
            match skipWs r3 with
            | c4 :: r4 =>
              if c4 = ',' then parseMembers fuel r4 (acc ++ [(key, v)])
              else if c4 = rbrace then some (.obj (acc ++ [(key, v)]), r4)
              else none
            | [] => none
          | none => none
        | _ => none
      | none => none
    | _ => none

/-- Array elements after the opening bracket. -/
def parseArrRest : Nat → JsStr → Option (Json × JsStr)
  | 0, _ => none
  | fuel + 1, s =>
    match skipWs s with
    | ']' :: r => some (.arr [], r)
    | _ => parseElems fuel s []

/-- Non-empty element list of an array. -/
def parseElems : Nat → JsStr → List Json → Option (Json × JsStr)
  | 0, _, _ => none
  | fuel + 1, s, acc =>
    match parseVal fuel s with
    | some (v, r1) =>
      match skipWs r1 with
      | ',' :: r2 => parseElems fuel r2 (acc ++ [v])
      | ']' :: r2 => some (.arr (acc ++ [v]), r2)
      | _ => none
    | none => none

end

/-- The Unicode replacement character U+FFFD. -/
def repl : Char := Char.ofNat 0xFFFD

/-- UTF-8 continuation byte. -/
def isCont (b : Nat) : Bool := decide (0x80 ≤ b ∧ b < 0xC0)

/-- Admissible second byte of a 3-byte sequence (depends on the lead
byte: `E0` forbids overlong, `ED` forbids surrogates). -/
def cont3ok (b0 b1 : Nat) : Bool :=
  if b0 = 0xE0 then decide (0xA0 ≤ b1 ∧ b1 < 0xC0)
  else if b0 = 0xED then decide (0x80 ≤ b1 ∧ b1 < 0xA0)
  else isCont b1

/-- Admissible second byte of a 4-byte sequence (`F0` forbids overlong,
`F4` caps at U+10FFFF). -/
def cont4ok (b0 b1 : Nat) : Bool :=
  if b0 = 0xF0 then decide (0x90 ≤ b1 ∧ b1 < 0xC0)
  else if b0 = 0xF4 then decide (0x80 ≤ b1 ∧ b1 < 0x90)
  else isCont b1

/-- Model of `Buffer.prototype.toString("utf8")` on a byte chunk: WHATWG
UTF-8 decoding, emitting one U+FFFD replacement per maximal subpart of
an ill-formed subsequence.  This is the decoding Node applies to each
`data` chunk independently in the stdout handler. -/
def utf8Decode : List Nat → List Char
  | [] => []
  | b0 :: rest =>
    if b0 < 0x80 then Char.ofNat b0 :: utf8Decode rest
    else if b0 < 0xC2 then repl :: utf8Decode rest
    else if b0 < 0xE0 then
      match rest with
      | b1 :: rest1 =>
        if isCont b1 then
          Char.ofNat ((b0 - 0xC0) * 64 + (b1 - 0x80)) :: utf8Decode rest1
        else repl :: utf8Decode (b1 :: rest1)
      | [] => [repl]
    else if b0 < 0xF0 then
      match rest with
      | b1 :: rest1 =>
        if cont3ok b0 b1 then
          match rest1 with
          | b2 :: rest2 =>
            if isCont b2 then
              Char.ofNat (((b0 - 0xE0) * 64 + (b1 - 0x80)) * 64 + (b2 - 0x80)) ::
                utf8Decode rest2
            else repl :: utf8Decode (b2 :: rest2)
          | [] => [repl]
        else repl :: utf8Decode (b1 :: rest1)
      | [] => [repl]
    else if b0 < 0xF5 then
      match rest with
      | b1 :: rest1 =>
        if cont4ok b0 b1 then
          match rest1 with
          | b2 :: rest2 =>
            if isCont b2 then
              match rest2 with
              | b3 :: rest3 =>
                if isCont b3 then
                  Char.ofNat
                    ((((b0 - 0xF0) * 64 + (b1 - 0x80)) * 64 + (b2 - 0x80)) * 64 +
                      (b3 - 0x80)) :: utf8Decode rest3
                else repl :: utf8Decode (b3 :: rest3)
              | [] => [repl]
            else repl :: utf8Decode (b2 :: rest2)
          | [] => [repl]
        else repl :: utf8Decode (b1 :: rest1)
      | [] => [repl]
    else repl :: utf8Decode rest

/-- UTF-8 encoding of one scalar value. -/
def utf8EncodeChar (c : Char) : List Nat :=
  if c.toNat < 0x80 then [c.toNat]
  else if c.toNat < 0x800 then [0xC0 + c.toNat / 64, 0x80 + c.toNat % 64]
  else if c.toNat < 0x10000 then
    [0xE0 + c.toNat / 4096, 0x80 + (c.toNat / 64) % 64, 0x80 + c.toNat % 64]
  else
    [0xF0 + c.toNat / 262144, 0x80 + (c.toNat / 4096) % 64,
     0x80 + (c.toNat / 64) % 64, 0x80 + c.toNat % 64]

/-- Decimal rendering of an integer (JS template interpolation of a
number). -/
def intStr (n : Int) : JsStr := (toString n).data

/-- Decimal rendering of a natural number. -/
def natStr (n : Nat) : JsStr := (toString n).data

/-- JS `Map.prototype.get` on a string-keyed map modelled as an
association list in insertion order. -/
def mapGet {β : Type} (m : List (JsStr × β)) (k : JsStr) : Option β :=
  (m.find? (fun e => e.1 = k)).map Prod.snd

/-- JS `Map.prototype.set`: update in place when the key exists,
append otherwise. -/
def mapSet {β : Type} : List (JsStr × β) → JsStr → β → List (JsStr × β)
  | [], k, v => [(k, v)]
  | (k1, v1) :: rest, k, v =>
    if k1 = k then (k, v) :: rest else (k1, v1) :: mapSet rest k v

/-- JS `Map.prototype.delete`. -/
def mapDel {β : Type} (m : List (JsStr × β)) (k : JsStr) : List (JsStr × β) :=
  m.filter (fun e => ¬(e.1 = k))

/-- `a || b` on optional strings with JS truthiness (an empty string
counts as absent). -/
def jsOrStr (a b : Option JsStr) : Option JsStr :=
  match a with
  | some s => if s = [] then b else some s
  | none => b

/-- A string-valued field coerced by truthiness (`x || undefined`). -/
def truthyStr (o : Option JsStr) : Option JsStr :=
  match o with
  | some s => if s = [] then none else some s
  | none => none

/-- The job key `` `${repo}#${number}` ``. -/
def jobId (repo : JsStr) (number : Int) : JsStr := repo ++ '#' :: intStr number

/-- Rendering of an exit code in the error template
(`Agent exited with code ${code}`; JS renders `null` for a signal
kill). -/
def codeStr (code : Option Int) : JsStr :=
  match code with
  | some n => intStr n
  | none => jstr "null"

/-- What the source reads off the value returned by `spawn(...)`: the
`pid` property, which is `undefined` when the OS-level spawn failed
(Node reports that failure only through a later asynchronous `error`
event, for which the source installs no handler). -/
structure SpawnResult where
  pid : Option Nat
  deriving Repr, DecidableEq

/-- Response of `POST /api/agent-session`: the success payload
`(dispatched, sessionId, pid, resumed)` or an HTTP error with its status
code. -/
inductive DispatchResult where
  | ok (sessionId : JsStr) (pid : Option Nat) (resumed : Bool)
  | err (code : Nat) (message : JsStr)
  deriving Repr, DecidableEq

/-- Response of `DELETE /api/agent-session/:id`. -/
inductive CancelResult where
  | ok (id : JsStr) (status : SessionStatus)
  | notFound
  deriving Repr, DecidableEq

/-- The stderr message built by the stderr `data` handler
(`{ type: "stderr", raw: { text } }`). -/
def stderrMessage (text : JsStr) : AgentStreamMessage :=
  { type := .str (jstr "stderr")
    subtype := none
    raw := .obj [(jstr "text", .str text)] }

/-- JSON string escaping for one character (the escapes `JSON.stringify`
emits for the payloads at hand). -/
def jsonQuoteChar (c : Char) : JsStr :=
  if c = '"' then ['\\', '"']
  else if c = '\\' then ['\\', '\\']
  else if c = '\n' then ['\\', 'n']
  else if c = '\r' then ['\\', 'r']
  else if c = '\t' then ['\\', 't']
  else [c]

/-- A JSON string literal. -/
def jsonQuote (s : JsStr) : JsStr := '"' :: (s.map jsonQuoteChar).flatten ++ ['"']

/-- Comma-join of rendered fragments. -/
def joinComma : List JsStr → JsStr
  | [] => []
  | [x] => x
  | x :: xs => x ++ ',' :: joinComma xs

/-- Model of JavaScript `JSON.stringify` on the payload values of this
model. -/
def jsonStringify : Json → JsStr
  | .null => jstr "null"
  | .bool true => jstr "true"
  | .bool false => jstr "false"
  | .num n => intStr n
  | .str s => jsonQuote s
  | .arr xs => '[' :: joinComma (xs.attach.map (fun x => jsonStringify x.1)) ++ [']']
  | .obj fs =>
    lbrace :: joinComma (fs.attach.map
      (fun f => jsonQuote f.1.1 ++ ':' :: jsonStringify f.1.2)) ++ [rbrace]
termination_by j => sizeOf j
decreasing_by
  · have := List.sizeOf_lt_of_mem x.2
    simp_wf
    omega
  · simp_wf
    obtain ⟨⟨k, v⟩, hf⟩ := f
    have := List.sizeOf_lt_of_mem hf
    simp at this ⊢
    omega

/-- One connected dashboard subscriber (`SSEClient` in the source).  The
model adds the observable transport state: whether the connection is
still writable, and what has been written to it so far. -/
structure SSEClient where
  id : Nat
  connected : Bool
  received : List JsStr
  deriving Repr, DecidableEq

/-- `client.res.write(message)`: appends to the sink, or throws
(`Except.error`) when the client transport has gone away. -/
def writeClient (c : SSEClient) (msg : JsStr) : Except JsStr SSEClient :=
  if c.connected then .ok { c with received := c.received ++ [msg] }
  else .error (jstr "EPIPE: write after end")

/-- The asynchronous events that can reach one session after dispatch:
stdout/stderr data (already decoded to text), an explicit cancel
request, and the (at most one) process exit. -/
inductive SessionEvent where
  | stdoutData (chunk : JsStr)
  | stderrData (chunk : JsStr)
  | cancelRequest
  | exited (now : Nat) (code : Option Int)
  deriving Repr

/-- The finalization timestamp an event carries, if it is the exit
event. -/
def exitTimeOf : SessionEvent → Option Nat
  | .exited now _ => some now
  | _ => none

/-- Terminal session statuses per the spec: complete, failed,
cancelled. -/
def SessionStatus.isTerminal : SessionStatus → Bool
  | .running => false
  | .complete => true
  | .failed => true
  | .cancelled => true

/-- Model of JavaScript `JSON.parse` on the protocol fragment described
above: `none` models a thrown `SyntaxError`.  The fuel is ample for any
input (each grammar step consumes input; doubling the length plus a
constant over-provisions). -/
def jsonParse (s : JsStr) : Option Json :=
  match parseVal (2 * s.length + 16) s with
  | some (j, rest) => if skipWs rest = [] then some j else none
  | none => none

/-- A bare running session used as the starting point of the framer
counterexamples. -/
def framerTestSession : AgentSession :=
  { id := jstr "s-test"
    repo := none
    number := none
    prompt := []
    path := []
    status := .running
    pid := none
    messages := []
    startedAt := 0
    completedAt := none
    exitCode := none
    label := none
    cursorChatId := none }

/-- A lifecycle-init line carrying conversation identifier `AAA`. -/
def initLineA : JsStr :=
  jstr "\x7b\"type\":\"system\",\"subtype\":\"init\",\"session_id\":\"AAA\"\x7d"

/-- A lifecycle-init line carrying conversation identifier `BBB`. -/
def initLineB : JsStr :=
  jstr "\x7b\"type\":\"system\",\"subtype\":\"init\",\"session_id\":\"BBB\"\x7d"

/-- The text payload of a raw/stderr message, used to compare framed
sequences on a decidable projection. -/
def msgRawText (m : AgentStreamMessage) : Option JsStr :=
  match m.raw with
  | .obj [(_, .str t)] => some t
  | _ => none

/-- Model of JavaScript `str.split("\n")`: the list of fragments between
newline characters.  Always returns a non-empty list; no fragment
contains a newline; the original string is the fragments interleaved
with newlines. -/
def splitOnNl : JsStr → List JsStr
  | [] => [[]]
  | c :: rest =>
    if c = '\n' then [] :: splitOnNl rest
    else
      match splitOnNl rest with
      | [] => [[c]]
      | l :: ls => (c :: l) :: ls

/-- UTF-8 encoding of a character sequence. -/
def utf8Encode (cs : List Char) : List Nat := (cs.map utf8EncodeChar).flatten

/-- What one publish does to one subscriber, in isolation: a writable
sink receives the serialized frame, an unwritable one is untouched. -/
def deliver (msg : JsStr) (c : SSEClient) : SSEClient :=
  if c.connected then { c with received := c.received ++ [msg] } else c

/-- One iteration of the stdout handler's per-line loop in
`createAgentSession`: trim; skip when empty; parse as JSON, appending a
structured message and capturing `session_id` from a `system`/`init`
record, or append a raw-text message when parsing fails.  Parametric in
`parse`, the model of `JSON.parse` (returning `none` where `JSON.parse`
throws). -/
def handleLine (parse : JsStr → Option Json) (s : AgentSession) (line : JsStr) :
    AgentSession :=
  let trimmed := jsTrim line
  if trimmed = [] then s
  else
    match parse trimmed with
    | some parsed =>
      let s1 := { s with messages := s.messages ++ [parsedMessage parsed] }
      if jsIsStr (jsGet parsed (jstr "type")) (jstr "system") &&
         jsIsStr (jsGet parsed (jstr "subtype")) (jstr "init") then
        match sessionIdStr parsed with
        | some sid => { s1 with cursorChatId := some sid }
        | none => s1
      else s1
    | none =>
      { s with messages := s.messages ++ [rawMessage (jsTrim line)] }

/-- The stdout `data` handler of `createAgentSession`: append the chunk
to the carry-over buffer, split on newlines, hold back the final
fragment as the new buffer (`lines.pop() || ""`), and run the per-line
loop on every complete line. -/
def processStdout (parse : JsStr → Option Json) (s : AgentSession) (buf chunk : JsStr) :
    AgentSession × JsStr :=
  let parts := splitOnNl (buf ++ chunk)
  let newBuf := parts.getLastD []
  let lines := parts.dropLast
  (lines.foldl (handleLine parse) s, newBuf)

/-- The whole stdout stream of a session, delivered as a list of chunks
(each already decoded to text), starting from the empty carry-over
buffer the source initializes (`let stdoutBuffer = ""`). -/
def runStdout (parse : JsStr → Option Json) (s : AgentSession) (chunks : List JsStr) :
    AgentSession × JsStr :=
  chunks.foldl (fun st chunk => processStdout parse st.1 st.2 chunk) (s, [])

/-- The stdout handler as driven by Node: each raw byte chunk is decoded
independently (`data.toString()` in the handler) before being appended
to the text carry-over buffer. -/
def runStdoutBytes (parse : JsStr → Option Json) (s : AgentSession)
    (chunks : List (List Nat)) : AgentSession × JsStr :=
  runStdout parse s (chunks.map utf8Decode)

/-- Job category (`AgentJob["type"]` in `src/app/server.ts`). -/
inductive JobType where
  | comments | checks | conflicts | all
  deriving Repr, DecidableEq

/-- Job status (`AgentJob["status"]` in `src/app/server.ts`). -/
inductive JobStatus where
  | pending | running | complete | failed
  deriving Repr, DecidableEq

/-- One coarse fix-attempt record (`AgentJob` in `src/app/server.ts`). -/
structure AgentJob where
  id : JsStr
  repo : JsStr
  number : Int
  type : JobType
  status : JobStatus
  startedAt : Nat
  completedAt : Option Nat
  summary : Option JsStr
  error : Option JsStr
  deriving Repr, DecidableEq

/-- External effects the handlers perform, in program order: SSE
broadcasts, process spawns/kills, and scheduled timers.  Recording them
as an ordered trace lets theorems speak about what is published and in
what order relative to the spawn. -/
inductive Effect where
  | bcastStatus (job : AgentJob)
  | bcastSessionCreated (id : JsStr) (repo : Option JsStr) (number : Option Int)
      (status : SessionStatus) (label : Option JsStr) (startedAt : Nat)
      (cursorChatId : Option JsStr)
  | bcastStream (sessionId : JsStr) (message : AgentStreamMessage)
  | bcastComplete (sessionId : JsStr) (status : SessionStatus)
      (exitCode : Option Int) (durationMs : Nat)
  | spawnProc (bin : JsStr) (args : List JsStr) (cwd : JsStr)
  | killProc (sessionId : JsStr) (signal : JsStr)
  | scheduleKill (sessionId : JsStr) (delayMs : Nat)
  | schedulePrRefresh (repo : JsStr) (number : Int) (delayMs : Nat)
  deriving Repr

/-- The in-memory server state touched by the session/job core:
`agentSessions`, `agentProcesses`, `agentJobs`, the session id counter
and the boot-time CLI capability probe. -/
structure ServerState where
  agentSessions : List (JsStr × AgentSession)
  agentProcesses : List (JsStr × SpawnResult)
  agentJobs : List (JsStr × AgentJob)
  sessionIdCounter : Nat
  agentCliAvailable : Bool
  agentCliBin : JsStr
  deriving Repr

/-- Options of `createAgentSession` (`opts` in the source). -/
structure CreateOpts where
  path : JsStr
  prompt : JsStr
  repo : Option JsStr
  number : Option Int
  label : Option JsStr
  type : Option JobType
  resumeChatId : Option JsStr
  deriving Repr

/-- `createAgentSession` of `src/app/server.ts`: allocate the session
id, register the session (status `running`), upsert the correlated
`AgentJob` and broadcast `agent-status` when a truthy (repo, number)
correlation is present, broadcast `agent-session-created`, build the CLI
arguments, spawn, and record the pid and the process handle.  Returns
the new state, the session as registered, and the ordered effect
trace. -/
def createAgentSession (st : ServerState) (now : Nat) (spawnResult : SpawnResult)
    (opts : CreateOpts) : ServerState × AgentSession × List Effect :=
  let counter := st.sessionIdCounter + 1
  let sessionId := jstr "session-" ++ natStr now ++ '-' :: natStr counter
  let session0 : AgentSession :=
    { id := sessionId
      repo := opts.repo
      number := opts.number
      prompt := opts.prompt
      path := opts.path
      status := .running
      pid := none
      messages := []
      startedAt := now
      completedAt := none
      exitCode := none
      label := opts.label
      cursorChatId := opts.resumeChatId }
  let corr : Option (JsStr × Int) :=
    match opts.repo, opts.number with
    | some r, some n => if r ≠ [] ∧ n ≠ 0 then some (r, n) else none
    | _, _ => none
  let jobUpdate : Option (AgentJob × List Effect) :=
    match corr with
    | some (r, n) =>
      let job : AgentJob :=
        { id := jobId r n
          repo := r
          number := n
          type := opts.type.getD .all
          status := .running
          startedAt := now
          completedAt := none
          summary := none
          error := none }
      some (job, [.bcastStatus job])
    | none => none
  let jobs' :=
    match jobUpdate with
    | some (job, _) => mapSet st.agentJobs job.id job
    | none => st.agentJobs
  let jobEffects :=
    match jobUpdate with
    | some (_, effs) => effs
    | none => []
  let createdEffect : Effect :=
    .bcastSessionCreated session0.id session0.repo session0.number session0.status
      session0.label session0.startedAt session0.cursorChatId
  let cliArgs : List JsStr :=
    (match opts.resumeChatId with
     | some chatId => [jstr "--resume", chatId, jstr "-p", opts.prompt]
     | none => [jstr "-p", opts.prompt]) ++
    [jstr "--force", jstr "--output-format", jstr "stream-json",
     jstr "--stream-partial-output"]
  let session : AgentSession := { session0 with pid := spawnResult.pid }
  let st' : ServerState :=
    { st with
      sessionIdCounter := counter
      agentSessions := mapSet st.agentSessions sessionId session
      agentProcesses := mapSet st.agentProcesses sessionId spawnResult
      agentJobs := jobs' }
  (st', session,
    jobEffects ++ [createdEffect, .spawnProc st.agentCliBin cliArgs opts.path])

/-- Request body of `POST /api/agent-session`. -/
structure DispatchRequest where
  path : Option JsStr
  prompt : Option JsStr
  repo : Option JsStr
  number : Option Int
  label : Option JsStr
  type : Option JobType
  resumeSessionId : Option JsStr
  deriving Repr

/-- The `POST /api/agent-session` handler: validate `path`/`prompt`
presence (truthiness), the boot-time CLI capability, and working
directory existence; resolve the resume handle from the prior session;
then delegate to `createAgentSession`.  `pathExists` models
`existsSync`. -/
def postAgentSession (st : ServerState) (now : Nat) (pathExists : JsStr → Bool)
    (spawnResult : SpawnResult) (req : DispatchRequest) :
    ServerState × DispatchResult × List Effect :=
  match truthyStr req.path, truthyStr req.prompt with
  | some projectPath, some prompt =>
    if ¬st.agentCliAvailable then
      (st, .err 503 (jstr "Agent CLI not available. Install with: curl https://cursor.com/install -fsSL | bash"), [])
    else if ¬pathExists projectPath then
      (st, .err 400 (jstr "Path does not exist: " ++ projectPath), [])
    else
      let resumeChatId : Option JsStr :=
        match truthyStr req.resumeSessionId with
        | some rid =>
          match mapGet st.agentSessions rid with
          | some prev => truthyStr prev.cursorChatId
          | none => none
        | none => none
      let res := createAgentSession st now spawnResult
        { path := projectPath
          prompt := prompt
          repo := truthyStr req.repo
          number := match req.number with
                    | some n => if n = 0 then none else some n
                    | none => none
          label := truthyStr req.label
          type := req.type
          resumeChatId := resumeChatId }
      (res.1, .ok res.2.1.id res.2.1.pid resumeChatId.isSome, res.2.2)
  | _, _ => (st, .err 400 (jstr "Missing required fields: path, prompt"), [])

/-- The `DELETE /api/agent-session/:id` handler: if a live process
handle is registered and the session is `running`, mark the session
`cancelled` and request termination (SIGTERM now, SIGKILL scheduled
after the 5-second grace period); always answer success with the
session's current status.  Note it does not set `completedAt` — that is
left to the exit handler. -/
def deleteAgentSession (st : ServerState) (id : JsStr) :
    ServerState × CancelResult × List Effect :=
  match mapGet st.agentSessions id with
  | none => (st, .notFound, [])
  | some session =>
    match mapGet st.agentProcesses id with
    | some _ =>
      if session.status = .running then
        let session' := { session with status := SessionStatus.cancelled }
        ({ st with agentSessions := mapSet st.agentSessions id session' },
         .ok id session'.status,
         [.killProc id (jstr "SIGTERM"), .scheduleKill id 5000])
      else (st, .ok id session.status, [])
    | none => (st, .ok id session.status, [])

/-- The `child.on("exit")` handler of `createAgentSession`: record the
exit code, stamp `completedAt`, finalize the status
(`code === 0 ? "complete" : (status === "cancelled" ? "cancelled" :
"failed")`), drop the process handle, broadcast `agent-complete`, update
the correlated job when one exists, and on `complete` schedule the
delayed PR refresh. -/
def onChildExit (st : ServerState) (sessionId : JsStr) (now : Nat)
    (code : Option Int) : ServerState × List Effect :=
  match mapGet st.agentSessions sessionId with
  | none => (st, [])
  | some session =>
    let newStatus : SessionStatus :=
      if code = some 0 then .complete
      else if session.status = .cancelled then .cancelled
      else .failed
    let session' := { session with
      exitCode := some code
      completedAt := some now
      status := newStatus }
    let st1 := { st with
      agentSessions := mapSet st.agentSessions sessionId session'
      agentProcesses := mapDel st.agentProcesses sessionId }
    let effs0 := [Effect.bcastComplete sessionId newStatus code
      (now - session.startedAt)]
    match session.repo, session.number with
    | some r, some n =>
      if r ≠ [] ∧ n ≠ 0 then
        let key := jobId r n
        let jobStep : ServerState × List Effect :=
          match mapGet st1.agentJobs key with
          | some existingJob =>
            let job' := { existingJob with
              status := if newStatus = .complete then JobStatus.complete
                        else JobStatus.failed
              completedAt := some now
              error := if newStatus ≠ .complete then
                         some (jstr "Agent exited with code " ++ codeStr code)
                       else existingJob.error }
            ({ st1 with agentJobs := mapSet st1.agentJobs key job' },
             [Effect.bcastStatus job'])
          | none => (st1, [])
        let refreshEffs :=
          if newStatus = .complete then [Effect.schedulePrRefresh r n 3000]
          else []
        (jobStep.1, effs0 ++ jobStep.2 ++ refreshEffs)
      else (st1, effs0)
    | _, _ => (st1, effs0)

/-- The stderr `data` handler of `createAgentSession`: each decoded
chunk whose trimmed text is non-empty becomes one `stderr` message (no
newline framing on the error stream). -/
def processStderr (s : AgentSession) (chunk : JsStr) : AgentSession :=
  let text := jsTrim chunk
  if text = [] then s
  else { s with messages := s.messages ++ [stderrMessage text] }

/-- Request body of `POST /api/agent-job` (the agent's progress
callback). -/
structure JobReportRequest where
  repo : Option JsStr
  number : Option Int
  status : Option JobStatus
  type : Option JobType
  summary : Option JsStr
  error : Option JsStr
  deriving Repr

/-- Response of `POST /api/agent-job`. -/
inductive JobApiResult where
  | ok (job : AgentJob)
  | err (code : Nat)
  deriving Repr, DecidableEq

/-- The `POST /api/agent-job` handler: validate the required truthy
fields, then upsert the job under `` `${repo}#${number}` `` — carrying
`type`/`summary`/`error`/`startedAt` forward from the prior record when
the new report leaves them unset — broadcast `agent-status`, and on
`complete` schedule the delayed PR refresh. -/
def postAgentJob (st : ServerState) (now : Nat) (req : JobReportRequest) :
    ServerState × JobApiResult × List Effect :=
  match truthyStr req.repo, req.number, req.status with
  | some repo, some number, some status =>
    if number = 0 then (st, .err 400, [])
    else
      let id := jobId repo number
      let existing := mapGet st.agentJobs id
      let job : AgentJob :=
        { id := id
          repo := repo
          number := number
          type := match req.type with
                  | some t => t
                  | none => match existing with
                            | some e => e.type
                            | none => .all
          status := status
          startedAt := match existing with
                       | some e => if e.startedAt = 0 then now else e.startedAt
                       | none => now
          completedAt := if status = .complete ∨ status = .failed then some now
                         else none
          summary := jsOrStr req.summary (existing.bind (fun e => e.summary))
          error := jsOrStr req.error (existing.bind (fun e => e.error)) }
      ({ st with agentJobs := mapSet st.agentJobs id job },
       .ok job,
       [Effect.bcastStatus job] ++
         (if status = .complete then [Effect.schedulePrRefresh repo number 3000]
          else []))
  | _, _, _ => (st, .err 400, [])

/-- The SSE wire frame built by `broadcastSSE`
(`` `event: ${event}\ndata: ${JSON.stringify(data)}\n\n` ``). -/
def sseMessage (event : JsStr) (data : Json) : JsStr :=
  jstr "event: " ++ event ++ jstr "\ndata: " ++ jsonStringify data ++ jstr "\n\n"

/-- Loop body of `broadcastSSE`: attempt the write inside `try`/`catch`;
a throw leaves the client exactly as it was and is swallowed. -/
def broadcastStep (msg : JsStr) (acc : List SSEClient × Nat) (c : SSEClient) :
    List SSEClient × Nat :=
  match writeClient c msg with
  | .ok c2 => (acc.1 ++ [c2], acc.2 + 1)
  | .error _ => (acc.1 ++ [c], acc.2)

/-- `broadcastSSE` of `src/app/server.ts`: serialize the payload once,
then write the frame to every registered client in registration order,
counting successes; write failures are caught per client and never
remove the client from the registry (cleanup belongs to the disconnect
path).  Returns the registry as left by the publish and `sentCount`. -/
def broadcastSSE (clients : List SSEClient) (event : JsStr) (data : Json) :
    List SSEClient × Nat :=
  clients.foldl (broadcastStep (sseMessage event data)) ([], 0)

/-- Dispatches one asynchronous event to the handler the source
installs for it, threading the stdout carry-over buffer. -/
def stepSessionEvent (parse : JsStr → Option Json) (sessionId : JsStr) :
    ServerState × JsStr → SessionEvent → ServerState × JsStr
  | (st, buf), .stdoutData chunk =>
    match mapGet st.agentSessions sessionId with
    | some session =>
      let r := processStdout parse session buf chunk
      ({ st with agentSessions := mapSet st.agentSessions sessionId r.1 }, r.2)
    | none => (st, buf)
  | (st, buf), .stderrData chunk =>
    match mapGet st.agentSessions sessionId with
    | some session =>
      let s2 := processStderr session chunk
      ({ st with agentSessions := mapSet st.agentSessions sessionId s2 }, buf)
    | none => (st, buf)
  | (st, buf), .cancelRequest => ((deleteAgentSession st sessionId).1, buf)
  | (st, buf), .exited now code => ((onChildExit st sessionId now code).1, buf)

/-- A session's whole observable life after dispatch. -/
def runSessionEvents (parse : JsStr → Option Json) (sessionId : JsStr)
    (init : ServerState × JsStr) (events : List SessionEvent) :
    ServerState × JsStr :=
  events.foldl (stepSessionEvent parse sessionId) init

/-- The server state at boot: empty registries, counter zero, and the
result of the capability probe. -/
def initialServerState (avail : Bool) (bin : JsStr) : ServerState :=
  { agentSessions := []
    agentProcesses := []
    agentJobs := []
    sessionIdCounter := 0
    agentCliAvailable := avail
    agentCliBin := bin }

/-- A concrete dispatch used by the counterexamples: no correlation,
spawned successfully with pid 77, at time 1000 on a fresh server. -/
def cexOpts : CreateOpts :=
  { path := jstr "/tmp/proj"
    prompt := jstr "fix"
    repo := none
    number := none
    label := none
    type := none
    resumeChatId := none }

/-- The server state, session and effects after that dispatch; the
session id is `session-1000-1`. -/
def cexCreated : ServerState × AgentSession × List Effect :=
  createAgentSession (initialServerState true (jstr "agent")) 1000
    { pid := some 77 } cexOpts

/-- The merge the spec describes for a repeated report: the prior stored
record with only the new report's explicitly supplied fields
overwritten (status always, category/summary/error only when supplied),
and the completion time stamped exactly when the new status is
terminal. -/
def specMergeJob (prior : AgentJob) (req : JobReportRequest) (status : JobStatus)
    (now : Nat) : AgentJob :=
  { prior with
    status := status
    type := match req.type with
            | some t => t
            | none => prior.type
    summary := match req.summary with
               | some x => some x
               | none => prior.summary
    error := match req.error with
             | some x => some x
             | none => prior.error
    completedAt := if status = .complete ∨ status = .failed then some now
                   else none }

/-- Scenario D, first report: `report(repo, 42, "running", "checks")`. -/
def reqD1 : JobReportRequest :=
  { repo := some (jstr "octo/repo")
    number := some 42
    status := some .running
    type := some .checks
    summary := none
    error := none }

/-- Scenario D, second report:
`report(repo, 42, "complete", undefined, "fixed 3 checks")`. -/
def reqD2 : JobReportRequest :=
  { repo := some (jstr "octo/repo")
    number := some 42
    status := some .complete
    type := none
    summary := some (jstr "fixed 3 checks")
    error := none }

/-- The job the first Scenario D report stores. -/
def jobD1 : AgentJob :=
  { id := jobId (jstr "octo/repo") 42
    repo := jstr "octo/repo"
    number := 42
    type := .checks
    status := .running
    startedAt := 5
    completedAt := none
    summary := none
    error := none }

/-- A dispatch request whose spawn will fail at the OS level (the
capability probe found a binary at boot; it is gone or not executable by
spawn time, so `spawn` reports no pid and only an asynchronous `error`
event the source never listens for). -/
def cexDispatchReq : DispatchRequest :=
  { path := some (jstr "/tmp/proj")
    prompt := some (jstr "fix")
    repo := none
    number := none
    label := none
    type := none
    resumeSessionId := none }

/-- The dispatch outcome under that failing spawn. -/
def cexSpawnFail : ServerState × DispatchResult × List Effect :=
  postAgentSession (initialServerState true (jstr "agent")) 1000
    (fun _ => true) { pid := none } cexDispatchReq

/-- A prior terminal job with summary and error, about to be discarded
by a new dispatch under the same key. -/
def oldJobW : AgentJob :=
  { id := jobId (jstr "o/r") 7
    repo := jstr "o/r"
    number := 7
    type := .comments
    status := .failed
    startedAt := 1
    completedAt := some 2
    summary := some (jstr "old")
    error := some (jstr "boom") }

/-- A server whose job registry already holds that terminal job. -/
def stWithOldJob : ServerState :=
  { initialServerState true (jstr "agent") with
    agentJobs := [(jobId (jstr "o/r") 7, oldJobW)] }

/-- A correlated dispatch against the same (repository, PR) key. -/
def optsW : CreateOpts :=
  { path := jstr "/tmp/p"
    prompt := jstr "go"
    repo := some (jstr "o/r")
    number := some 7
    label := none
    type := none
    resumeChatId := none }

/-- Character-at-a-time reformulation of the stdout handler, used to
prove chunking-invariance: a newline flushes the buffer through the
per-line loop, any other character extends the buffer. -/
def charStep (parse : JsStr → Option Json) :
    AgentSession × JsStr → Char → AgentSession × JsStr
  | (s, buf), c =>
    if c = '\n' then (handleLine parse s buf, []) else (s, buf ++ [c])

/-- Splitting a newline-free string yields that single fragment. -/
theorem splitOnNl_no_nl (s : JsStr) (h : '\n' ∉ s) : splitOnNl s = [s] := by
  induction s with
  | nil => rfl
  | cons c rest ih =>
    simp only [List.mem_cons, not_or] at h
    simp only [splitOnNl]
    rw [if_neg (fun hc => h.1 hc.symm)]
    rw [ih h.2]

/-- Splitting past a newline that terminates a newline-free prefix. -/
theorem splitOnNl_append_nl (pre rest : JsStr) (h : '\n' ∉ pre) :
    splitOnNl (pre ++ '\n' :: rest) = pre :: splitOnNl rest := by
  induction pre with
  | nil => simp [splitOnNl]
  | cons c p ih =>
    simp only [List.mem_cons, not_or] at h
    show splitOnNl (c :: (p ++ '\n' :: rest)) = (c :: p) :: splitOnNl rest
    simp only [splitOnNl]
    rw [if_neg (fun hc => h.1 hc.symm), ih h.2]

/-- C1 (counterexample): a session cancelled while running whose process
then exits with code 0 is finalized `complete`, not `cancelled` — the
exit handler checks `code === 0` before the cancel mark.  The second
conjunct shows the cancel mark had been set when the exit arrived. -/
theorem cancel_then_exit_zero_finalizes_complete :
    (mapGet (deleteAgentSession cexCreated.1
        (jstr "session-1000-1")).1.agentSessions
        (jstr "session-1000-1")).map (fun s => s.status) =
      some SessionStatus.cancelled ∧
    (mapGet (onChildExit
        (deleteAgentSession cexCreated.1 (jstr "session-1000-1")).1
        (jstr "session-1000-1") 2000 (some 0)).1.agentSessions
        (jstr "session-1000-1")).map (fun s => s.status) =
      some SessionStatus.complete := by
  exact ⟨rfl, rfl⟩

/-- C2 (counterexample): immediately after a cancel request on a running
session — before its process exits — the status is `cancelled`, a
terminal status, yet `completedAt` is still unset, refuting the
"completedAt iff terminal" biconditional at that observable point. -/
theorem cancel_marked_session_terminal_without_completedAt :
    (mapGet (deleteAgentSession cexCreated.1
        (jstr "session-1000-1")).1.agentSessions
        (jstr "session-1000-1")).map
        (fun s => (s.status, s.status.isTerminal, s.completedAt)) =
      some (SessionStatus.cancelled, true, none) := by
  exact rfl

/-- C3 (counterexample): after two parsed init records with identifiers
`AAA` then `BBB`, the stored handle is `BBB` — the capture has no
"only if unset" guard, so the first occurrence does not win. -/
theorem later_init_record_overwrites_chat_handle :
    (runStdout jsonParse framerTestSession
        [initLineA ++ '\n' :: initLineB ++ ['\n']]).1.cursorChatId =
      some (jstr "BBB") ∧
    jstr "BBB" ≠ jstr "AAA" := by
  exact ⟨rfl, by decide⟩

/-- C5 (counterexample): the byte stream `C3 A9 0A` (the UTF-8 encoding
of `é` plus a newline) framed as one chunk yields the raw-text message
`é`, but split as `[C3] / [A9 0A]` — a boundary inside the multi-byte
character — each chunk is decoded independently by `data.toString()`
and the framer yields the raw-text message `��` instead: the
framed sequences differ for two chunkings of the same stream. -/
theorem split_multibyte_char_changes_framing :
    ([[0xC3], [0xA9, 0x0A]] : List (List Nat)).flatten =
      ([[0xC3, 0xA9, 0x0A]] : List (List Nat)).flatten ∧
    (runStdoutBytes jsonParse framerTestSession
        [[0xC3, 0xA9, 0x0A]]).1.messages ≠
      (runStdoutBytes jsonParse framerTestSession
        [[0xC3], [0xA9, 0x0A]]).1.messages := by
  refine ⟨rfl, ?_⟩
  intro h
  have h1 : (runStdoutBytes jsonParse framerTestSession
      [[0xC3, 0xA9, 0x0A]]).1.messages = [rawMessage (jstr "é")] := rfl
  have h2 : (runStdoutBytes jsonParse framerTestSession
      [[0xC3], [0xA9, 0x0A]]).1.messages =
      [rawMessage (jstr "��")] := rfl
  have h3 : ([rawMessage (jstr "é")].map msgRawText) =
      ([rawMessage (jstr "��")].map msgRawText) := by
    rw [← h1, ← h2, h]
  exact absurd h3 (by decide)

/-- C8 (counterexample): with the spawn failing at the OS level, the
dispatch still answers success (`dispatched: true`, pid absent) and the
session is registered, status `running` — it is not rejected
synchronously, and a session is left in the registry. -/
theorem spawn_failure_still_registers_session :
    cexSpawnFail.2.1 = DispatchResult.ok (jstr "session-1000-1") none false ∧
    (mapGet cexSpawnFail.1.agentSessions (jstr "session-1000-1")).map
      (fun s => s.status) = some SessionStatus.running := by
  exact ⟨rfl, rfl⟩

/-- C9: a dispatch with an empty (or missing) prompt, a missing path, or
a working directory that does not exist is rejected immediately with a
400 validation error; the server state is completely unchanged (no
session registered, no job touched, no counter bump) and no effect — in
particular no SSE event — is produced. -/
theorem invalid_dispatch_rejected_without_side_effects
    (st : ServerState) (now : Nat) (pathExists : JsStr → Bool)
    (spawnResult : SpawnResult) (req : DispatchRequest)
    (h : truthyStr req.prompt = none ∨ truthyStr req.path = none ∨
         (st.agentCliAvailable = true ∧
          ∃ p, truthyStr req.path = some p ∧ pathExists p = false)) :
    ∃ msg, postAgentSession st now pathExists spawnResult req =
      (st, DispatchResult.err 400 msg, []) := by
  rcases h with h | h | ⟨hcli, p, hp, hpe⟩
  · cases hpath : truthyStr req.path with
    | none =>
      refine ⟨jstr "Missing required fields: path, prompt", ?_⟩
      simp only [postAgentSession, hpath, h]
    | some pp =>
      refine ⟨jstr "Missing required fields: path, prompt", ?_⟩
      simp only [postAgentSession, hpath, h]
  · cases hpr : truthyStr req.prompt with
    | none =>
      refine ⟨jstr "Missing required fields: path, prompt", ?_⟩
      simp only [postAgentSession, h, hpr]
    | some pr =>
      refine ⟨jstr "Missing required fields: path, prompt", ?_⟩
      simp only [postAgentSession, h, hpr]
  · cases hpr : truthyStr req.prompt with
    | none =>
      refine ⟨jstr "Missing required fields: path, prompt", ?_⟩
      simp only [postAgentSession, hp, hpr]
    | some pr =>
      refine ⟨jstr "Path does not exist: " ++ p, ?_⟩
      simp only [postAgentSession, hp, hpr]
      rw [if_neg (by simp [hcli]), if_pos (by simp [hpe])]

/-- Witness for C9 at a concrete nonexistent working directory. -/
theorem invalid_dispatch_rejected_without_side_effects_witness :
    ∃ msg, postAgentSession (initialServerState true (jstr "agent")) 1000
        (fun _ => false) { pid := some 77 } cexDispatchReq =
      (initialServerState true (jstr "agent"), DispatchResult.err 400 msg,
       []) := by
  exact invalid_dispatch_rejected_without_side_effects
    (initialServerState true (jstr "agent")) 1000 (fun _ => false)
    { pid := some 77 } cexDispatchReq
    (Or.inr (Or.inr ⟨rfl, jstr "/tmp/proj", rfl, rfl⟩))

theorem splitOnNl_ne_nil (s : JsStr) : splitOnNl s ≠ [] := by
  induction s with
  | nil => simp [splitOnNl]
  | cons c rest ih =>
    simp only [splitOnNl]
    split
    · simp
    · cases h : splitOnNl rest with
      | nil => simp
      | cons l ls => simp

@[simp] theorem orO_some {α : Type} (x : α) (b : Option α) :
    orO (some x) b = some x := rfl

@[simp] theorem orO_none {α : Type} (b : Option α) : orO none b = b := rfl

theorem handleLine_messages (parse : JsStr → Option Json) (s : AgentSession)
    (line : JsStr) :
    (handleLine parse s line).messages =
      s.messages ++ (classifyLine parse line).toList := by
  simp only [handleLine, classifyLine]
  by_cases h : jsTrim line = []
  · simp [h]
  · rw [if_neg h, if_neg h]
    cases hp : parse (jsTrim line) with
    | none => simp
    | some parsed =>
      simp only [Option.toList_some]
      split
      · cases hs : sessionIdStr parsed <;> simp
      · simp

theorem handleLine_chatId (parse : JsStr → Option Json) (s : AgentSession)
    (line : JsStr) :
    (handleLine parse s line).cursorChatId =
      orO (initIdOfLine parse line) s.cursorChatId := by
  simp only [handleLine, initIdOfLine]
  by_cases h : jsTrim line = []
  · simp [h]
  · rw [if_neg h, if_neg h]
    cases hp : parse (jsTrim line) with
    | none => simp
    | some parsed =>
      simp only []
      split
      · cases hs : sessionIdStr parsed with
        | none => simp [hs]
        | some sid => simp [hs]
      · simp

theorem foldl_handleLine_messages (parse : JsStr → Option Json) :
    ∀ (ls : List JsStr) (s : AgentSession),
    (ls.foldl (handleLine parse) s).messages =
      s.messages ++ ls.filterMap (classifyLine parse) := by
  intro ls
  induction ls with
  | nil => intro s; simp
  | cons l ls ih =>
    intro s
    simp only [List.foldl_cons, List.filterMap_cons]
    rw [ih (handleLine parse s l), handleLine_messages]
    cases h : classifyLine parse l <;> simp [h]

theorem foldl_handleLine_chatId (parse : JsStr → Option Json) :
    ∀ (ls : List JsStr) (s : AgentSession),
    (ls.foldl (handleLine parse) s).cursorChatId =
      orO (ls.filterMap (initIdOfLine parse)).getLast? s.cursorChatId := by
  intro ls
  induction ls with
  | nil => intro s; simp
  | cons l ls ih =>
    intro s
    simp only [List.foldl_cons, List.filterMap_cons]
    rw [ih (handleLine parse s l)]
    rw [handleLine_chatId]
    cases h : initIdOfLine parse l with
    | none => simp
    | some sid =>
      simp only []
      cases hfm : ls.filterMap (initIdOfLine parse) with
      | nil => simp
      | cons x xs =>
        have hg2 : (x :: xs).getLast? = some ((x :: xs).getLast (by simp)) :=
          List.getLast?_eq_getLast _ (by simp)
        rw [List.getLast?_cons_cons, hg2]
        simp

theorem utf8Decode_nil : utf8Decode [] = [] := rfl

theorem utf8Decode_two (v : Nat) (h1 : 0x80 ≤ v) (h2 : v < 0x800) (b : List Nat) :
    utf8Decode ((0xC0 + v / 64) :: (0x80 + v % 64) :: b) =
      Char.ofNat v :: utf8Decode b := by
  conv_lhs => rw [utf8Decode.eq_def]
  simp only []
  rw [if_neg (show ¬((0xC0 + v / 64) < 0x80) by omega)]
  rw [if_neg (show ¬((0xC0 + v / 64) < 0xC2) by omega)]
  rw [if_pos (show (0xC0 + v / 64) < 0xE0 by omega)]
  rw [if_pos (show isCont (0x80 + v % 64) = true by
    simp only [isCont, decide_eq_true_eq]; omega)]
  rw [show (0xC0 + v / 64 - 0xC0) * 64 + (0x80 + v % 64 - 0x80) = v by omega]

theorem utf8Decode_three (v : Nat) (h1 : 0x800 ≤ v) (h2 : v < 0x10000)
    (hs : v < 0xD800 ∨ 0xE000 ≤ v) (b : List Nat) :
    utf8Decode ((0xE0 + v / 4096) :: (0x80 + (v / 64) % 64) :: (0x80 + v % 64) :: b) =
      Char.ofNat v :: utf8Decode b := by
  conv_lhs => rw [utf8Decode.eq_def]
  simp only []
  rw [if_neg (show ¬((0xE0 + v / 4096) < 0x80) by omega)]
  rw [if_neg (show ¬((0xE0 + v / 4096) < 0xC2) by omega)]
  rw [if_neg (show ¬((0xE0 + v / 4096) < 0xE0) by omega)]
  rw [if_pos (show (0xE0 + v / 4096) < 0xF0 by omega)]
  rw [if_pos (show cont3ok (0xE0 + v / 4096) (0x80 + (v / 64) % 64) = true by
    simp only [cont3ok, isCont]
    by_cases he0 : 0xE0 + v / 4096 = 0xE0
    · rw [if_pos he0]; simp only [decide_eq_true_eq]; omega
    · rw [if_neg he0]
      by_cases hed : 0xE0 + v / 4096 = 0xED
      · rw [if_pos hed]; simp only [decide_eq_true_eq]; omega
      · rw [if_neg hed]; simp only [decide_eq_true_eq]; omega)]
  rw [if_pos (show isCont (0x80 + v % 64) = true by
    simp only [isCont, decide_eq_true_eq]; omega)]
  rw [show ((0xE0 + v / 4096 - 0xE0) * 64 + (0x80 + (v / 64) % 64 - 0x80)) * 64 +
      (0x80 + v % 64 - 0x80) = v by omega]

theorem utf8Decode_four (v : Nat) (h1 : 0x10000 ≤ v) (h2 : v < 0x110000)
    (b : List Nat) :
    utf8Decode ((0xF0 + v / 262144) :: (0x80 + (v / 4096) % 64) ::
        (0x80 + (v / 64) % 64) :: (0x80 + v % 64) :: b) =
      Char.ofNat v :: utf8Decode b := by
  conv_lhs => rw [utf8Decode.eq_def]
  simp only []
  rw [if_neg (show ¬((0xF0 + v / 262144) < 0x80) by omega)]
  rw [if_neg (show ¬((0xF0 + v / 262144) < 0xC2) by omega)]
  rw [if_neg (show ¬((0xF0 + v / 262144) < 0xE0) by omega)]
  rw [if_neg (show ¬((0xF0 + v / 262144) < 0xF0) by omega)]
  rw [if_pos (show (0xF0 + v / 262144) < 0xF5 by omega)]
  rw [if_pos (show cont4ok (0xF0 + v / 262144) (0x80 + (v / 4096) % 64) = true by
    simp only [cont4ok, isCont]
    by_cases hf0 : 0xF0 + v / 262144 = 0xF0
    · rw [if_pos hf0]; simp only [decide_eq_true_eq]; omega
    · rw [if_neg hf0]
      by_cases hf4 : 0xF0 + v / 262144 = 0xF4
      · rw [if_pos hf4]; simp only [decide_eq_true_eq]; omega
      · rw [if_neg hf4]; simp only [decide_eq_true_eq]; omega)]
  rw [if_pos (show isCont (0x80 + (v / 64) % 64) = true by
    simp only [isCont, decide_eq_true_eq]; omega)]
  rw [if_pos (show isCont (0x80 + v % 64) = true by
    simp only [isCont, decide_eq_true_eq]; omega)]
  rw [show (((0xF0 + v / 262144 - 0xF0) * 64 + (0x80 + (v / 4096) % 64 - 0x80)) * 64 +
      (0x80 + (v / 64) % 64 - 0x80)) * 64 + (0x80 + v % 64 - 0x80) = v by omega]

/-- Decoding an encoded character at the head of a byte stream yields
exactly that character and leaves the rest to decode independently. -/
theorem utf8Decode_encodeChar (c : Char) (b : List Nat) :
    utf8Decode (utf8EncodeChar c ++ b) = c :: utf8Decode b := by
  have hval : c.toNat < 0xD800 ∨ (0xE000 ≤ c.toNat ∧ c.toNat < 0x110000) := by
    have h := c.valid
    unfold UInt32.isValidChar at h
    exact h
  have hofn : Char.ofNat c.toNat = c := Char.ofNat_toNat c
  by_cases ha : c.toNat < 0x80
  · simp only [utf8EncodeChar]
    rw [if_pos ha]
    simp only [List.cons_append, List.nil_append]
    conv_lhs => rw [utf8Decode.eq_def]
    simp only []
    rw [if_pos ha, hofn]
  · by_cases hb : c.toNat < 0x800
    · simp only [utf8EncodeChar]
      rw [if_neg ha, if_pos hb]
      simp only [List.cons_append, List.nil_append]
      rw [utf8Decode_two c.toNat (by omega) hb b, hofn]
    · by_cases hc : c.toNat < 0x10000
      · simp only [utf8EncodeChar]
        rw [if_neg ha, if_neg hb, if_pos hc]
        simp only [List.cons_append, List.nil_append]
        rw [utf8Decode_three c.toNat (by omega) hc (by omega) b, hofn]
      · simp only [utf8EncodeChar]
        rw [if_neg ha, if_neg hb, if_neg hc]
        simp only [List.cons_append, List.nil_append]
        rw [utf8Decode_four c.toNat (by omega) (by omega) b, hofn]

theorem utf8Decode_encode_append (cs : List Char) (b : List Nat) :
    utf8Decode (utf8Encode cs ++ b) = cs ++ utf8Decode b := by
  induction cs with
  | nil => simp [utf8Encode]
  | cons c cs ih =>
    simp only [utf8Encode, List.map_cons, List.flatten_cons, List.append_assoc]
    rw [utf8Decode_encodeChar]
    simp only [List.cons_append]
    rw [show (List.map utf8EncodeChar cs).flatten = utf8Encode cs from rfl]
    rw [ih]

theorem foldl_broadcastStep (msg : JsStr) :
    ∀ (cs : List SSEClient) (acc : List SSEClient) (n : Nat),
    cs.foldl (broadcastStep msg) (acc, n) =
      (acc ++ cs.map (deliver msg), n + cs.countP (fun c => c.connected)) := by
  intro cs
  induction cs with
  | nil => intro acc n; simp
  | cons c cs ih =>
    intro acc n
    by_cases hc : c.connected
    · simp only [List.foldl_cons, broadcastStep, writeClient, if_pos hc]
      rw [ih]
      simp [deliver, hc, List.countP_cons]
      omega
    · simp only [List.foldl_cons, broadcastStep, writeClient, if_neg hc]
      rw [ih]
      simp [deliver, hc, List.countP_cons]

theorem mapGet_cons {β : Type} (k1 : JsStr) (v1 : β) (rest : List (JsStr × β))
    (k : JsStr) :
    mapGet ((k1, v1) :: rest) k = if k1 = k then some v1 else mapGet rest k := by
  simp only [mapGet, List.find?]
  by_cases h : k1 = k
  · simp [h]
  · simp [h]

theorem mapGet_mapSet_self {β : Type} (m : List (JsStr × β)) (k : JsStr) (v : β) :
    mapGet (mapSet m k v) k = some v := by
  induction m with
  | nil => simp [mapSet, mapGet, List.find?]
  | cons e rest ih =>
    obtain ⟨k1, v1⟩ := e
    simp only [mapSet]
    by_cases h : k1 = k
    · rw [if_pos h, mapGet_cons, if_pos rfl]
    · rw [if_neg h, mapGet_cons, if_neg h]
      exact ih

theorem handleLine_completedAt (parse : JsStr → Option Json) (s : AgentSession)
    (line : JsStr) : (handleLine parse s line).completedAt = s.completedAt := by
  simp only [handleLine]
  by_cases h : jsTrim line = []
  · simp [h]
  · rw [if_neg h]
    cases hp : parse (jsTrim line) with
    | none => rfl
    | some parsed =>
      simp only []
      split
      · cases hs : sessionIdStr parsed <;> rfl
      · rfl

theorem foldl_handleLine_completedAt (parse : JsStr → Option Json) :
    ∀ (ls : List JsStr) (s : AgentSession),
    (ls.foldl (handleLine parse) s).completedAt = s.completedAt := by
  intro ls
  induction ls with
  | nil => intro s; rfl
  | cons l ls ih =>
    intro s
    rw [List.foldl_cons, ih, handleLine_completedAt]

theorem processStdout_completedAt (parse : JsStr → Option Json) (s : AgentSession)
    (buf chunk : JsStr) :
    (processStdout parse s buf chunk).1.completedAt = s.completedAt := by
  simp only [processStdout]
  exact foldl_handleLine_completedAt parse _ s

theorem processStderr_completedAt (s : AgentSession) (chunk : JsStr) :
    (processStderr s chunk).completedAt = s.completedAt := by
  simp only [processStderr]
  split <;> rfl

theorem deleteAgentSession_completedAt (st : ServerState) (id : JsStr)
    (s : AgentSession) (h : mapGet st.agentSessions id = some s) :
    ∃ s', mapGet (deleteAgentSession st id).1.agentSessions id = some s' ∧
      s'.completedAt = s.completedAt := by
  simp only [deleteAgentSession]
  rw [h]
  cases hp : mapGet st.agentProcesses id with
  | none => exact ⟨s, h, rfl⟩
  | some pr =>
    simp only []
    by_cases hr : s.status = SessionStatus.running
    · rw [if_pos hr]
      exact ⟨_, mapGet_mapSet_self _ _ _, rfl⟩
    · rw [if_neg hr]
      exact ⟨s, h, rfl⟩

theorem onChildExit_completedAt (st : ServerState) (id : JsStr) (now : Nat)
    (code : Option Int) (s : AgentSession)
    (h : mapGet st.agentSessions id = some s) :
    ∃ s', mapGet (onChildExit st id now code).1.agentSessions id = some s' ∧
      s'.completedAt = some now := by
  simp only [onChildExit]
  rw [h]
  simp only []
  cases hr : s.repo with
  | none => exact ⟨_, mapGet_mapSet_self _ _ _, rfl⟩
  | some r =>
    cases hn : s.number with
    | none => exact ⟨_, mapGet_mapSet_self _ _ _, rfl⟩
    | some n =>
      simp only []
      by_cases hc : r ≠ [] ∧ n ≠ 0
      · rw [if_pos hc]
        cases hj : mapGet st.agentJobs (jobId r n) with
        | none => exact ⟨_, mapGet_mapSet_self _ _ _, rfl⟩
        | some j => exact ⟨_, mapGet_mapSet_self _ _ _, rfl⟩
      · rw [if_neg hc]
        exact ⟨_, mapGet_mapSet_self _ _ _, rfl⟩

theorem orO_none_right {α : Type} (a : Option α) : orO a none = a := by
  cases a <;> rfl

theorem stepSessionEvent_completedAt (parse : JsStr → Option Json)
    (sessionId : JsStr) (ev : SessionEvent) (init : ServerState × JsStr)
    (s : AgentSession) (h : mapGet init.1.agentSessions sessionId = some s) :
    ∃ s', mapGet (stepSessionEvent parse sessionId init ev).1.agentSessions
        sessionId = some s' ∧
      s'.completedAt = orO (exitTimeOf ev) s.completedAt := by
  obtain ⟨st, buf⟩ := init
  simp only [] at h
  cases ev with
  | stdoutData chunk =>
    simp only [stepSessionEvent]
    rw [h]
    simp only []
    refine ⟨_, mapGet_mapSet_self _ _ _, ?_⟩
    rw [processStdout_completedAt]
    rfl
  | stderrData chunk =>
    simp only [stepSessionEvent]
    rw [h]
    simp only []
    refine ⟨_, mapGet_mapSet_self _ _ _, ?_⟩
    rw [processStderr_completedAt]
    rfl
  | cancelRequest =>
    simp only [stepSessionEvent]
    obtain ⟨s', h1, h2⟩ := deleteAgentSession_completedAt st sessionId s h
    exact ⟨s', h1, by rw [h2]; rfl⟩
  | exited now code =>
    simp only [stepSessionEvent]
    obtain ⟨s', h1, h2⟩ := onChildExit_completedAt st sessionId now code s h
    exact ⟨s', h1, by rw [h2]; rfl⟩

theorem runSessionEvents_completedAt_foldl (parse : JsStr → Option Json)
    (sessionId : JsStr) :
    ∀ (events : List SessionEvent) (init : ServerState × JsStr)
      (s : AgentSession),
    mapGet init.1.agentSessions sessionId = some s →
    ∃ s', mapGet (runSessionEvents parse sessionId init
        events).1.agentSessions sessionId = some s' ∧
      s'.completedAt =
        events.foldl (fun v ev => orO (exitTimeOf ev) v) s.completedAt := by
  intro events
  induction events with
  | nil => intro init s h; exact ⟨s, h, rfl⟩
  | cons e evs ih =>
    intro init s h
    obtain ⟨s1, h1, h2⟩ := stepSessionEvent_completedAt parse sessionId e init s h
    obtain ⟨s2, h3, h4⟩ := ih (stepSessionEvent parse sessionId init e) s1 h1
    refine ⟨s2, h3, ?_⟩
    rw [h4, h2]
    rfl

theorem foldl_orO_exitTime :
    ∀ (events : List SessionEvent) (v : Option Nat),
    events.foldl (fun v ev => orO (exitTimeOf ev) v) v =
      orO (events.filterMap exitTimeOf).getLast? v := by
  intro events
  induction events with
  | nil => intro v; rfl
  | cons e evs ih =>
    intro v
    simp only [List.foldl_cons, List.filterMap_cons]
    rw [ih]
    cases he : exitTimeOf e with
    | none => simp
    | some t =>
      simp only [orO_some]
      cases hfm : evs.filterMap exitTimeOf with
      | nil => simp
      | cons x xs =>
        have hg2 : (x :: xs).getLast? = some ((x :: xs).getLast (by simp)) :=
          List.getLast?_eq_getLast _ (by simp)
        rw [List.getLast?_cons_cons, hg2]
        simp

theorem onChildExit_sessions_lookup (st : ServerState) (id : JsStr) (now : Nat)
    (code : Option Int) (s : AgentSession)
    (h : mapGet st.agentSessions id = some s) :
    mapGet (onChildExit st id now code).1.agentSessions id =
      some { s with
        exitCode := some code
        completedAt := some now
        status := if code = some 0 then SessionStatus.complete
                  else if s.status = SessionStatus.cancelled then
                    SessionStatus.cancelled
                  else SessionStatus.failed } := by
  simp only [onChildExit]
  rw [h]
  simp only []
  cases hr : s.repo with
  | none => exact mapGet_mapSet_self _ _ _
  | some r =>
    cases hn : s.number with
    | none => exact mapGet_mapSet_self _ _ _
    | some n =>
      simp only []
      by_cases hc : r ≠ [] ∧ n ≠ 0
      · rw [if_pos hc]
        cases hj : mapGet st.agentJobs (jobId r n) with
        | none => exact mapGet_mapSet_self _ _ _
        | some j => exact mapGet_mapSet_self _ _ _
      · rw [if_neg hc]
        exact mapGet_mapSet_self _ _ _

/-- The carry-over fragment (the last fragment of a split) never
contains a newline. -/
theorem splitOnNl_getLastD_no_nl (s : JsStr) :
    '\n' ∉ (splitOnNl s).getLastD [] := by
  induction s with
  | nil => simp [splitOnNl]
  | cons c rest ih =>
    simp only [splitOnNl]
    by_cases hc : c = '\n'
    · rw [if_pos hc]
      rcases h : splitOnNl rest with _ | ⟨l, ls⟩
      · exact absurd h (splitOnNl_ne_nil rest)
      · rw [h] at ih
        rw [List.getLastD_cons]
        cases ls with
        | nil => simpa using ih
        | cons l2 ls2 => rw [List.getLastD_cons]; rwa [List.getLastD_cons] at ih
    · rw [if_neg hc]
      rcases h : splitOnNl rest with _ | ⟨l, ls⟩
      · exact absurd h (splitOnNl_ne_nil rest)
      · rw [h] at ih
        cases ls with
        | nil =>
          simp only [List.getLastD_cons, List.getLastD_nil] at ih ⊢
          simp only [List.mem_cons, not_or]
          exact ⟨fun hh => hc hh.symm, ih⟩
        | cons l2 ls2 =>
          rw [List.getLastD_cons] at ih ⊢
          rw [List.getLastD_cons] at ih ⊢
          exact ih

/-- The split-based chunk handler equals the character-at-a-time fold,
provided the carry-over buffer contains no newline (an invariant of all
reachable buffers). -/
theorem processStdout_eq_foldl_charStep (parse : JsStr → Option Json) :
    ∀ (chunk : JsStr) (s : AgentSession) (buf : JsStr), '\n' ∉ buf →
    processStdout parse s buf chunk = chunk.foldl (charStep parse) (s, buf) := by
  intro chunk
  induction chunk with
  | nil =>
    intro s buf hb
    simp only [processStdout, List.append_nil, List.foldl_nil]
    rw [splitOnNl_no_nl buf hb]
    simp
  | cons c cs ih =>
    intro s buf hb
    by_cases hc : c = '\n'
    · subst hc
      simp only [List.foldl_cons, charStep, if_pos rfl, if_true]
      rw [← ih (handleLine parse s buf) [] (by simp)]
      simp only [processStdout, List.nil_append]
      rw [splitOnNl_append_nl buf cs hb]
      rcases h : splitOnNl cs with _ | ⟨l, ls⟩
      · exact absurd h (splitOnNl_ne_nil cs)
      · simp [List.dropLast_cons₂, List.getLastD_cons]
    · simp only [List.foldl_cons, charStep, if_neg hc]
      rw [← ih s (buf ++ [c]) (by
        simp only [List.mem_append, List.mem_singleton, not_or]
        exact ⟨hb, fun hh => hc hh.symm⟩)]
      simp only [processStdout, List.append_assoc, List.singleton_append]

/-- Round trip: decoding a fully encoded character sequence recovers it. -/
theorem utf8Decode_encode (cs : List Char) : utf8Decode (utf8Encode cs) = cs := by
  have h := utf8Decode_encode_append cs []
  rw [List.append_nil, utf8Decode_nil, List.append_nil] at h
  exact h

/-- Per-chunk decoding commutes with concatenation when every chunk is
the encoding of a character sequence (no chunk boundary splits a
character). -/
theorem flatten_map_utf8Decode (chunks : List (List Nat))
    (h : ∀ ch ∈ chunks, ∃ cs : List Char, ch = utf8Encode cs) :
    (chunks.map utf8Decode).flatten = utf8Decode chunks.flatten := by
  induction chunks with
  | nil => simp [utf8Decode_nil]
  | cons c cs ih =>
    obtain ⟨w, hw⟩ := h c (by simp)
    simp only [List.map_cons, List.flatten_cons]
    rw [ih (fun x hx => h x (by simp [hx]))]
    rw [hw, utf8Decode_encode, ← utf8Decode_encode_append]

/-- C1 (amended): on process exit the finalized status is `complete`
if and only if the exit code is exactly zero — even when the session was
already marked `cancelled` — and it is `cancelled` exactly when the exit
code is non-zero and the cancel mark was set. -/
theorem finalized_status_complete_iff_exit_zero (st : ServerState) (id : JsStr)
    (now : Nat) (code : Option Int) (s : AgentSession)
    (h : mapGet st.agentSessions id = some s) :
    ∃ s', mapGet (onChildExit st id now code).1.agentSessions id = some s' ∧
      (s'.status = SessionStatus.complete ↔ code = some 0) ∧
      (s'.status = SessionStatus.cancelled ↔
        (¬code = some 0 ∧ s.status = SessionStatus.cancelled)) := by
  refine ⟨_, onChildExit_sessions_lookup st id now code s h, ?_, ?_⟩
  · by_cases h0 : code = some 0
    · simp [h0]
    · by_cases hcan : s.status = SessionStatus.cancelled <;> simp [h0, hcan]
  · by_cases h0 : code = some 0
    · simp [h0]
    · by_cases hcan : s.status = SessionStatus.cancelled <;> simp [h0, hcan]

/-- Witness for the amended C1 at the concrete cancelled session and a
non-zero exit code: the finalized status is `cancelled` there. -/
theorem finalized_status_complete_iff_exit_zero_witness :
    ∃ s', mapGet (onChildExit
        (deleteAgentSession cexCreated.1 (jstr "session-1000-1")).1
        (jstr "session-1000-1") 2000 (some 1)).1.agentSessions
        (jstr "session-1000-1") = some s' ∧
      (s'.status = SessionStatus.complete ↔ (some 1 : Option Int) = some 0) ∧
      (s'.status = SessionStatus.cancelled ↔
        (¬(some 1 : Option Int) = some 0 ∧
         SessionStatus.cancelled = SessionStatus.cancelled)) := by
  have h := finalized_status_complete_iff_exit_zero
    (deleteAgentSession cexCreated.1 (jstr "session-1000-1")).1
    (jstr "session-1000-1") 2000 (some 1) _ rfl
  exact h

/-- C2 (amended): `completedAt` is set if and only if the process-exit
event has been processed — not when the status first turns terminal.  A
cancel request makes the status `cancelled` (terminal) while
`completedAt` stays unset; the exit event stamps `completedAt` with its
arrival time, and later stdout/stderr/cancel events never change it
(finalization is the unique exit event, so the stamp is set exactly
once). -/
theorem completedAt_iff_exit_event (parse : JsStr → Option Json)
    (sessionId : JsStr) (events : List SessionEvent)
    (init : ServerState × JsStr) (s : AgentSession)
    (h : mapGet init.1.agentSessions sessionId = some s)
    (h0 : s.completedAt = none) :
    ∃ s', mapGet (runSessionEvents parse sessionId init
        events).1.agentSessions sessionId = some s' ∧
      s'.completedAt = (events.filterMap exitTimeOf).getLast? := by
  obtain ⟨s', h1, h2⟩ :=
    runSessionEvents_completedAt_foldl parse sessionId events init s h
  refine ⟨s', h1, ?_⟩
  rw [h2, foldl_orO_exitTime, h0, orO_none_right]

/-- Witness for the amended C2: cancel then exit at time 2000 stamps
`completedAt = 2000`, the unique exit event's time. -/
theorem completedAt_iff_exit_event_witness :
    ∃ s', mapGet (runSessionEvents jsonParse (jstr "session-1000-1")
        (cexCreated.1, [])
        [SessionEvent.cancelRequest,
         SessionEvent.exited 2000 (some 0)]).1.agentSessions
        (jstr "session-1000-1") = some s' ∧
      s'.completedAt =
        ([SessionEvent.cancelRequest,
          SessionEvent.exited 2000 (some 0)].filterMap exitTimeOf).getLast? := by
  exact completedAt_iff_exit_event jsonParse (jstr "session-1000-1")
    [SessionEvent.cancelRequest, SessionEvent.exited 2000 (some 0)]
    (cexCreated.1, []) _ rfl rfl

/-- C6: reporting twice under one (repository, PR) key stores exactly
the spec's merge — fields the second report leaves unset (category,
summary, error) inherit the first stored record's values and never
become null, supplied (truthy) fields overwrite, and a terminal second
status stamps the completion time.  `now1 ≠ 0` reflects that wall-clock
stamps are positive. -/
theorem job_report_merge_inherits_unset_fields
    (st : ServerState) (now1 now2 : Nat) (req1 req2 : JobReportRequest)
    (r : JsStr) (n : Int) (s1 s2 : JobStatus)
    (hr1 : req1.repo = some r) (hrne : r ≠ []) (hn1 : req1.number = some n)
    (hnne : n ≠ 0) (hs1 : req1.status = some s1)
    (hr2 : req2.repo = some r) (hn2 : req2.number = some n)
    (hs2 : req2.status = some s2) (hnow : now1 ≠ 0)
    (hsum2 : ∀ x, req2.summary = some x → x ≠ [])
    (herr2 : ∀ x, req2.error = some x → x ≠ []) :
    ∀ job1, (postAgentJob st now1 req1).2.1 = JobApiResult.ok job1 →
      (postAgentJob (postAgentJob st now1 req1).1 now2 req2).2.1 =
        JobApiResult.ok (specMergeJob job1 req2 s2 now2) ∧
      mapGet (postAgentJob (postAgentJob st now1 req1).1 now2
          req2).1.agentJobs (jobId r n) =
        some (specMergeJob job1 req2 s2 now2) := by
  intro job1 hok
  have hrne2 : ¬(r = []) := hrne
  simp only [postAgentJob, hr1, hn1, hs1, truthyStr, if_neg hrne2, if_neg hnne,
    JobApiResult.ok.injEq] at hok
  subst hok
  have hst1 : ¬((match mapGet st.agentJobs (jobId r n) with
      | some e => if e.startedAt = 0 then now1 else e.startedAt
      | none => now1) = 0) := by
    cases hmg : mapGet st.agentJobs (jobId r n) with
    | none => exact hnow
    | some e =>
      by_cases he : e.startedAt = 0
      · simp [he]
        exact hnow
      · simp [he]
  simp only [postAgentJob, truthyStr, hr1, hn1, hs1, hr2, hn2, hs2,
    if_neg hrne2, if_neg hnne, mapGet_mapSet_self, specMergeJob]
  rcases hsx : req2.summary with _ | x
  all_goals rcases hex : req2.error with _ | y
  · simp only [jsOrStr, if_neg hst1, mapGet_mapSet_self]
    trivial
  · have hy : ¬(y = []) := herr2 y hex
    simp only [jsOrStr, if_neg hst1, if_neg hy, mapGet_mapSet_self]
    trivial
  · have hx : ¬(x = []) := hsum2 x hsx
    simp only [jsOrStr, if_neg hst1, if_neg hx, mapGet_mapSet_self]
    trivial
  · have hx : ¬(x = []) := hsum2 x hsx
    have hy : ¬(y = []) := herr2 y hex
    simp only [jsOrStr, if_neg hst1, if_neg hx, if_neg hy, mapGet_mapSet_self]
    trivial

/-- Witness for C6 at Scenario D: the merged record inherits category
`checks`, takes summary `fixed 3 checks`, and is stamped complete at the
second report's time. -/
theorem job_report_merge_inherits_unset_fields_witness :
    ((postAgentJob (postAgentJob (initialServerState true (jstr "agent")) 5
        reqD1).1 9 reqD2).2.1 =
      JobApiResult.ok (specMergeJob jobD1 reqD2 JobStatus.complete 9) ∧
    mapGet (postAgentJob (postAgentJob (initialServerState true (jstr "agent"))
        5 reqD1).1 9 reqD2).1.agentJobs (jobId (jstr "octo/repo") 42) =
      some (specMergeJob jobD1 reqD2 JobStatus.complete 9)) ∧
    (specMergeJob jobD1 reqD2 JobStatus.complete 9).type = JobType.checks ∧
    (specMergeJob jobD1 reqD2 JobStatus.complete 9).summary =
      some (jstr "fixed 3 checks") ∧
    (specMergeJob jobD1 reqD2 JobStatus.complete 9).completedAt = some 9 := by
  refine ⟨?_, by decide, by decide, by decide⟩
  exact job_report_merge_inherits_unset_fields
    (initialServerState true (jstr "agent")) 5 9 reqD1 reqD2
    (jstr "octo/repo") 42 JobStatus.running JobStatus.complete
    rfl (by decide) rfl (by decide) rfl rfl rfl rfl (by decide)
    (fun x h => by
      have h2 : jstr "fixed 3 checks" = x := Option.some.inj h
      rw [← h2]
      decide)
    (fun x h => Option.noConfusion h)
    jobD1 rfl

/-- C7: one publish writes the serialized frame to every registered sink
in registration order — each client's outcome (delivered when its sink
is writable, skipped when its write throws) depends only on that client,
so one bad sink never affects the others — and the publish leaves every
sink registered, including the failing ones; the per-client catch makes
the operation total (it never raises), returning only `sentCount`. -/
theorem broadcast_delivers_to_all_connected_preserving_registry
    (clients : List SSEClient) (event : JsStr) (data : Json) :
    broadcastSSE clients event data =
      (clients.map (deliver (sseMessage event data)),
       clients.countP (fun c => c.connected)) ∧
    (broadcastSSE clients event data).1.map (fun c => (c.id, c.connected)) =
      clients.map (fun c => (c.id, c.connected)) := by
  have h : broadcastSSE clients event data =
      (clients.map (deliver (sseMessage event data)),
       clients.countP (fun c => c.connected)) := by
    have h2 := foldl_broadcastStep (sseMessage event data) clients [] 0
    simpa [broadcastSSE] using h2
  refine ⟨h, ?_⟩
  rw [h]
  simp only [List.map_map]
  apply List.map_congr_left
  intro c _
  simp only [Function.comp_apply, deliver]
  split <;> rfl

/-- C8 (amended): an OS-level spawn failure is not detected by the
dispatch path: for every spawn outcome (in particular a failed spawn,
`pid = none`), a validated dispatch returns success carrying whatever
pid the spawn reported, and the session is registered with status
`running` before any spawn feedback can arrive.  Only the pre-spawn
checks (missing fields, capability probe, working-directory existence)
reject without creating a session. -/
theorem dispatch_succeeds_regardless_of_spawn_outcome
    (st : ServerState) (now : Nat) (pathExists : JsStr → Bool)
    (spawnResult : SpawnResult) (req : DispatchRequest)
    (projectPath prompt : JsStr)
    (hpath : truthyStr req.path = some projectPath)
    (hprompt : truthyStr req.prompt = some prompt)
    (hcli : st.agentCliAvailable = true)
    (hexists : pathExists projectPath = true) :
    ∃ resumed,
      (postAgentSession st now pathExists spawnResult req).2.1 =
        DispatchResult.ok
          (jstr "session-" ++ natStr now ++ '-' ::
            natStr (st.sessionIdCounter + 1))
          spawnResult.pid resumed ∧
      (mapGet (postAgentSession st now pathExists spawnResult
          req).1.agentSessions
          (jstr "session-" ++ natStr now ++ '-' ::
            natStr (st.sessionIdCounter + 1))).map (fun s => s.status) =
        some SessionStatus.running := by
  simp only [postAgentSession, hpath, hprompt]
  rw [if_neg (by simp [hcli]), if_neg (by simp [hexists])]
  simp only [createAgentSession]
  refine ⟨_, rfl, ?_⟩
  rw [mapGet_mapSet_self]
  rfl

/-- Witness for the amended C8: the concrete failed-spawn dispatch
returns success with no pid and a registered running session. -/
theorem dispatch_succeeds_regardless_of_spawn_outcome_witness :
    ∃ resumed,
      (postAgentSession (initialServerState true (jstr "agent")) 1000
          (fun _ => true) { pid := none } cexDispatchReq).2.1 =
        DispatchResult.ok
          (jstr "session-" ++ natStr 1000 ++ '-' ::
            natStr ((initialServerState true (jstr "agent")).sessionIdCounter
              + 1))
          ({ pid := none } : SpawnResult).pid resumed ∧
      (mapGet (postAgentSession (initialServerState true (jstr "agent")) 1000
          (fun _ => true) { pid := none } cexDispatchReq).1.agentSessions
          (jstr "session-" ++ natStr 1000 ++ '-' ::
            natStr ((initialServerState true (jstr "agent")).sessionIdCounter
              + 1))).map (fun s => s.status) =
        some SessionStatus.running := by
  exact dispatch_succeeds_regardless_of_spawn_outcome
    (initialServerState true (jstr "agent")) 1000 (fun _ => true)
    { pid := none } cexDispatchReq (jstr "/tmp/proj") (jstr "fix")
    rfl rfl rfl rfl

/-- C10: a dispatch carrying a truthy (repository, PR number)
correlation overwrites the job under that key with a fresh record —
status `running`, started now, with no completion time, summary or
error, discarding whatever was stored before — and the effect trace
broadcasts that job (`agent-status`) and the session-created event
before the process spawn. -/
theorem dispatch_overwrites_job_and_broadcasts_before_spawn
    (st : ServerState) (now : Nat) (spawnResult : SpawnResult)
    (opts : CreateOpts) (r : JsStr) (n : Int)
    (hr : opts.repo = some r) (hrne : r ≠ [])
    (hn : opts.number = some n) (hnne : n ≠ 0) :
    mapGet (createAgentSession st now spawnResult opts).1.agentJobs
        (jobId r n) =
      some { id := jobId r n, repo := r, number := n,
             type := opts.type.getD .all, status := .running,
             startedAt := now, completedAt := none, summary := none,
             error := none } ∧
    ∃ args,
      (createAgentSession st now spawnResult opts).2.2 =
        [Effect.bcastStatus
           { id := jobId r n, repo := r, number := n,
             type := opts.type.getD .all, status := .running,
             startedAt := now, completedAt := none, summary := none,
             error := none },
         Effect.bcastSessionCreated
           (createAgentSession st now spawnResult opts).2.1.id opts.repo
           opts.number SessionStatus.running opts.label now opts.resumeChatId,
         Effect.spawnProc st.agentCliBin args opts.path] := by
  have hcond : (r ≠ [] ∧ n ≠ 0) := ⟨hrne, hnne⟩
  constructor
  · simp only [createAgentSession, hr, hn, if_pos hcond]
    exact mapGet_mapSet_self _ _ _
  · refine ⟨(match opts.resumeChatId with
      | some chatId => [jstr "--resume", chatId, jstr "-p", opts.prompt]
      | none => [jstr "-p", opts.prompt]) ++
      [jstr "--force", jstr "--output-format", jstr "stream-json",
       jstr "--stream-partial-output"], ?_⟩
    simp only [createAgentSession, hr, hn, if_pos hcond]
    rfl

/-- Witness for C10: dispatching over the stored terminal job replaces
it with the fresh running record and broadcasts before spawning. -/
theorem dispatch_overwrites_job_and_broadcasts_before_spawn_witness :
    mapGet (createAgentSession stWithOldJob 50 { pid := some 1 }
        optsW).1.agentJobs (jobId (jstr "o/r") 7) =
      some { id := jobId (jstr "o/r") 7, repo := jstr "o/r", number := 7,
             type := optsW.type.getD .all, status := .running,
             startedAt := 50, completedAt := none, summary := none,
             error := none } ∧
    ∃ args,
      (createAgentSession stWithOldJob 50 { pid := some 1 } optsW).2.2 =
        [Effect.bcastStatus
           { id := jobId (jstr "o/r") 7, repo := jstr "o/r", number := 7,
             type := optsW.type.getD .all, status := .running,
             startedAt := 50, completedAt := none, summary := none,
             error := none },
         Effect.bcastSessionCreated
           (createAgentSession stWithOldJob 50 { pid := some 1 }
             optsW).2.1.id optsW.repo optsW.number SessionStatus.running
           optsW.label 50 optsW.resumeChatId,
         Effect.spawnProc stWithOldJob.agentCliBin args optsW.path] := by
  exact dispatch_overwrites_job_and_broadcasts_before_spawn stWithOldJob 50
    { pid := some 1 } optsW (jstr "o/r") 7 rfl (by decide) rfl (by decide)

theorem processStdout_no_nl (parse : JsStr → Option Json)
    (s : AgentSession) (buf chunk : JsStr) :
    '\n' ∉ (processStdout parse s buf chunk).2 := by
  simpa [processStdout] using splitOnNl_getLastD_no_nl (buf ++ chunk)

theorem foldl_processStdout_eq_charStep (parse : JsStr → Option Json) :
    ∀ (chunks : List JsStr) (st : AgentSession × JsStr), '\n' ∉ st.2 →
    chunks.foldl (fun st chunk => processStdout parse st.1 st.2 chunk) st =
      (chunks.flatten).foldl (charStep parse) st := by
  intro chunks
  induction chunks with
  | nil => intro st _; rfl
  | cons c cs ih =>
    intro st hst
    simp only [List.foldl_cons, List.flatten_cons, List.foldl_append]
    rw [ih _ (processStdout_no_nl parse st.1 st.2 c)]
    rw [processStdout_eq_foldl_charStep parse c st.1 st.2 hst]

/-- Chunking invariance at the text level: the framer's result depends
only on the concatenation of the decoded chunks. -/
theorem runStdout_flatten (parse : JsStr → Option Json) (s : AgentSession)
    (chunks : List JsStr) :
    runStdout parse s chunks = processStdout parse s [] chunks.flatten := by
  rw [runStdout, foldl_processStdout_eq_charStep parse chunks (s, []) (by simp)]
  rw [processStdout_eq_foldl_charStep parse chunks.flatten s [] (by simp)]

/-- C3 (amended): the stored conversation handle always reflects the
most recent parsed lifecycle-init record carrying a truthy identifier —
last occurrence wins, overwriting any earlier capture (or the handle a
resumed dispatch started with); it is only left alone when no complete
line carries one. -/
theorem cursorChatId_is_last_init_id (parse : JsStr → Option Json)
    (s : AgentSession) (chunks : List JsStr) :
    (runStdout parse s chunks).1.cursorChatId =
      orO ((splitOnNl chunks.flatten).dropLast.filterMap
        (initIdOfLine parse)).getLast? s.cursorChatId := by
  rw [runStdout_flatten]
  simp only [processStdout]
  exact foldl_handleLine_chatId parse _ s

/-- C4: over any chunking of the stream, the framer appends exactly one
message per complete non-empty line of the concatenated text — the
structured message for a line that parses, the raw-text fallback for one
that does not, nothing for whitespace-only lines — and the carry-over
buffer afterwards is exactly the final unterminated fragment.  In
particular a line split across chunk boundaries produces one message
once assembled. -/
theorem framed_messages_eq_per_line_classification
    (parse : JsStr → Option Json) (s : AgentSession) (chunks : List JsStr) :
    (runStdout parse s chunks).1.messages =
      s.messages ++
        ((splitOnNl chunks.flatten).dropLast).filterMap (classifyLine parse) ∧
    (runStdout parse s chunks).2 = (splitOnNl chunks.flatten).getLastD [] := by
  rw [runStdout_flatten]
  constructor
  · simp only [processStdout]
    exact foldl_handleLine_messages parse _ s
  · simp only [processStdout]
    rfl

/-- C5 (amended): the framed message sequence is invariant under
re-chunking of the byte stream provided no chunk boundary splits a
multi-byte encoded character (every chunk is a whole number of encoded
characters); because each chunk is decoded independently, a boundary
inside a character is decoded to replacement characters and changes the
sequence. -/
theorem framing_invariant_under_aligned_chunking (parse : JsStr → Option Json)
    (s : AgentSession) (chunks1 chunks2 : List (List Nat))
    (hflat : chunks1.flatten = chunks2.flatten)
    (h1 : ∀ ch ∈ chunks1, ∃ cs : List Char, ch = utf8Encode cs)
    (h2 : ∀ ch ∈ chunks2, ∃ cs : List Char, ch = utf8Encode cs) :
    runStdoutBytes parse s chunks1 = runStdoutBytes parse s chunks2 := by
  simp only [runStdoutBytes]
  rw [runStdout_flatten, runStdout_flatten]
  rw [flatten_map_utf8Decode chunks1 h1, flatten_map_utf8Decode chunks2 h2,
    hflat]

/-- Witness for the amended C5: `ok\n` sent whole versus split at the
(character-aligned) boundary after `ok` frames identically. -/
theorem framing_invariant_under_aligned_chunking_witness :
    ([utf8Encode (jstr "ok\n")] : List (List Nat)).flatten =
      ([utf8Encode (jstr "ok"), utf8Encode (jstr "\n")] :
        List (List Nat)).flatten ∧
    runStdoutBytes jsonParse framerTestSession [utf8Encode (jstr "ok\n")] =
      runStdoutBytes jsonParse framerTestSession
        [utf8Encode (jstr "ok"), utf8Encode (jstr "\n")] := by
  refine ⟨by decide, ?_⟩
  exact framing_invariant_under_aligned_chunking jsonParse framerTestSession
    [utf8Encode (jstr "ok\n")] [utf8Encode (jstr "ok"), utf8Encode (jstr "\n")]
    (by decide)
    (by
      intro ch hch
      simp only [List.mem_singleton] at hch
      exact ⟨jstr "ok\n", hch⟩)
    (by
      intro ch hch
      simp only [List.mem_cons, List.mem_singleton, List.not_mem_nil,
        or_false] at hch
      rcases hch with h | h
      · exact ⟨jstr "ok", h⟩
      · exact ⟨jstr "\n", h⟩)
